import Mathlib

/-!
Layout of the OMX extension parameter blocks of `media/hardware/HardwareAPI.h`

The header declares eleven structs in `namespace android` (one of them with a
nested struct and two nested enums) and nothing else: no function body, no
control flow.  The development below embeds

* every declaration of the header as data (`StructDecl`, `EnumDecl`), field by
  field and in declaration order, with the type each field is spelled with;
* the rule by which a C/C++ compiler places the members of such a struct
  (natural alignment, members in declaration order, tail padding up to the
  alignment of the struct), parameterised by the data model;
* the rule by which C gives values to enumerators;
* what reading a member out of the bytes of a block yields, and which bytes
  writing the members into a block produces.

and states the layout facts of the header over that embedding.
-/

namespace android

/-! ## Data models and C types -/

/-- A data model: the width in bytes of an object pointer and of `size_t`.
Both are aligned to their own width. -/
structure DataModel where
  pointerBytes : Nat
  sizeTBytes : Nat
deriving DecidableEq, Repr

/-- The 32-bit data model: pointers and `size_t` are 4 bytes. -/
def ILP32 : DataModel := ⟨4, 4⟩

/-- The 64-bit data model: pointers and `size_t` are 8 bytes, 8-byte aligned. -/
def LP64 : DataModel := ⟨8, 8⟩

/-- Modelled from the spec: the width of the types that `OMX_Types.h`,
`OMX_IVCommon.h` and `MetadataBufferType.h` declare and that are not part of
the header itself.  `OMX_U32` is an unsigned 32-bit integer, `OMX_VERSIONTYPE`
is "a 4-byte-aligned structured version identifier", and `OMX_BOOL` and the
other enums are 4 bytes wide. -/
def omxScalarBytes : Nat := 4

mutual
/-- The types the members of the header are declared with.  A pointer and a
reference keep the spelling they have in the header. -/
inductive CType where
  | OMX_U32
  | OMX_VERSIONTYPE
  | OMX_BOOL
  | enum (name : String)
  | size_t
  | pointer (spelling : String)
  | reference (spelling : String)
  | array (elem : CType) (count : Nat)
  | struct (name : String) (fields : Fields)
/-- The members of a struct, in declaration order. -/
inductive Fields where
  | nil
  | cons (name : String) (type : CType) (rest : Fields)
end

/-- A struct declaration: its name and its members. -/
structure StructDecl where
  name : String
  fields : Fields

/-- The type a struct declaration introduces. -/
def StructDecl.type (s : StructDecl) : CType := .struct s.name s.fields

/-- An enum declaration: the enumerators in order, each with the initialiser
it is written with, if any. -/
structure EnumDecl where
  name : String
  enumerators : List (String × Option Nat)

/-- The values of the enumerators: an enumerator with an initialiser has that
value, one without has the value of its predecessor plus one, and the first
one defaults to zero. -/
def enumValuesFrom (next : Nat) : List (String × Option Nat) → List (String × Nat)
  | [] => []
  | (n, some v) :: rest => (n, v) :: enumValuesFrom (v + 1) rest
  | (n, none) :: rest => (n, next) :: enumValuesFrom (next + 1) rest

/-- The enumerators of an enum with their values. -/
def EnumDecl.values (e : EnumDecl) : List (String × Nat) :=
  enumValuesFrom 0 e.enumerators

/-- The value of one enumerator. -/
def EnumDecl.valueOf (e : EnumDecl) (enumerator : String) : Option Nat :=
  (e.values.find? fun p => p.1 == enumerator).map Prod.snd

/-! ## The declarations of the header -/

/-- The struct of lines 48-53. -/
def EnableAndroidNativeBuffersParams : StructDecl :=
  ⟨"EnableAndroidNativeBuffersParams",
    .cons "nSize" .OMX_U32 <|
    .cons "nVersion" .OMX_VERSIONTYPE <|
    .cons "nPortIndex" .OMX_U32 <|
    .cons "enable" .OMX_BOOL .nil⟩

/-- The struct of lines 78-83. -/
def StoreMetaDataInBuffersParams : StructDecl :=
  ⟨"StoreMetaDataInBuffersParams",
    .cons "nSize" .OMX_U32 <|
    .cons "nVersion" .OMX_VERSIONTYPE <|
    .cons "nPortIndex" .OMX_U32 <|
    .cons "bStoreMetaData" .OMX_BOOL .nil⟩

/-- The struct of lines 87-90.  `MetadataBufferType` is an enum and
`buffer_handle_t` a pointer to a native handle. -/
def VideoDecoderOutputMetaData : StructDecl :=
  ⟨"VideoDecoderOutputMetaData",
    .cons "eType" (.enum "MetadataBufferType") <|
    .cons "pHandle" (.pointer "buffer_handle_t") .nil⟩

/-- The struct of lines 108-115. -/
def PrepareForAdaptivePlaybackParams : StructDecl :=
  ⟨"PrepareForAdaptivePlaybackParams",
    .cons "nSize" .OMX_U32 <|
    .cons "nVersion" .OMX_VERSIONTYPE <|
    .cons "nPortIndex" .OMX_U32 <|
    .cons "bEnable" .OMX_BOOL <|
    .cons "nMaxFrameWidth" .OMX_U32 <|
    .cons "nMaxFrameHeight" .OMX_U32 .nil⟩

/-- The struct of lines 122-129.  Its last member is a C++ reference. -/
def UseAndroidNativeBufferParams : StructDecl :=
  ⟨"UseAndroidNativeBufferParams",
    .cons "nSize" .OMX_U32 <|
    .cons "nVersion" .OMX_VERSIONTYPE <|
    .cons "nPortIndex" .OMX_U32 <|
    .cons "pAppPrivate" (.pointer "OMX_PTR") <|
    .cons "bufferHeader" (.pointer "OMX_BUFFERHEADERTYPE **") <|
    .cons "nativeBuffer" (.reference "const sp<ANativeWindowBuffer>&") .nil⟩

/-- The struct of lines 136-141. -/
def GetAndroidNativeBufferUsageParams : StructDecl :=
  ⟨"GetAndroidNativeBufferUsageParams",
    .cons "nSize" .OMX_U32 <|
    .cons "nVersion" .OMX_VERSIONTYPE <|
    .cons "nPortIndex" .OMX_U32 <|
    .cons "nUsage" .OMX_U32 .nil⟩

/-- The struct of lines 154-158. -/
def PrependSPSPPSToIDRFramesParams : StructDecl :=
  ⟨"PrependSPSPPSToIDRFramesParams",
    .cons "nSize" .OMX_U32 <|
    .cons "nVersion" .OMX_VERSIONTYPE <|
    .cons "bEnable" .OMX_BOOL .nil⟩

/-- The enum `MediaImage::Type` of lines 163-166. -/
def MediaImage.Type_ : EnumDecl :=
  ⟨"Type",
    [("MEDIA_IMAGE_TYPE_UNKNOWN", some 0),
     ("MEDIA_IMAGE_TYPE_YUV", none)]⟩

/-- The enum `MediaImage::PlaneIndex` of lines 168-173. -/
def MediaImage.PlaneIndex : EnumDecl :=
  ⟨"PlaneIndex",
    [("Y", some 0),
     ("U", none),
     ("V", none),
     ("MAX_NUM_PLANES", none)]⟩

/-- The enumerator `MediaImage::MAX_NUM_PLANES`, the bound of `mPlane`. -/
def MediaImage.MAX_NUM_PLANES : Nat :=
  (MediaImage.PlaneIndex.valueOf "MAX_NUM_PLANES").getD 0

/-- The nested struct `MediaImage::PlaneInfo` of lines 180-187. -/
def MediaImage.PlaneInfo : StructDecl :=
  ⟨"PlaneInfo",
    .cons "mOffset" .size_t <|
    .cons "mColInc" .size_t <|
    .cons "mRowInc" .size_t <|
    .cons "mHorizSubsampling" .size_t <|
    .cons "mVertSubsampling" .size_t .nil⟩

/-- The struct of lines 162-189. -/
def MediaImage : StructDecl :=
  ⟨"MediaImage",
    .cons "mType" (.enum "Type") <|
    .cons "mNumPlanes" .size_t <|
    .cons "mWidth" .size_t <|
    .cons "mHeight" .size_t <|
    .cons "mBitDepth" .size_t <|
    .cons "mPlane" (.array MediaImage.PlaneInfo.type MediaImage.MAX_NUM_PLANES) .nil⟩

/-- The struct of lines 203-215. -/
def DescribeColorFormatParams : StructDecl :=
  ⟨"DescribeColorFormatParams",
    .cons "nSize" .OMX_U32 <|
    .cons "nVersion" .OMX_VERSIONTYPE <|
    .cons "eColorFormat" (.enum "OMX_COLOR_FORMATTYPE") <|
    .cons "nFrameWidth" .OMX_U32 <|
    .cons "nFrameHeight" .OMX_U32 <|
    .cons "nStride" .OMX_U32 <|
    .cons "nSliceHeight" .OMX_U32 <|
    .cons "sMediaImage" MediaImage.type .nil⟩

/-- The struct of lines 229-236. -/
def ConfigureVideoTunnelModeParams : StructDecl :=
  ⟨"ConfigureVideoTunnelModeParams",
    .cons "nSize" .OMX_U32 <|
    .cons "nVersion" .OMX_VERSIONTYPE <|
    .cons "nPortIndex" .OMX_U32 <|
    .cons "bTunneled" .OMX_BOOL <|
    .cons "nAudioHwSync" .OMX_U32 <|
    .cons "pSidebandWindow" (.pointer "OMX_PTR") .nil⟩

/-- The struct of lines 242-246. -/
def DisableAVCReorderParams : StructDecl :=
  ⟨"DisableAVCReorderParams",
    .cons "nSize" .OMX_U32 <|
    .cons "nVersion" .OMX_VERSIONTYPE <|
    .cons "bDisable" .OMX_BOOL .nil⟩

/-- The structs declared at the top level of `namespace android`, in the order
of the header. -/
def structs : List StructDecl :=
  [EnableAndroidNativeBuffersParams,
   StoreMetaDataInBuffersParams,
   VideoDecoderOutputMetaData,
   PrepareForAdaptivePlaybackParams,
   UseAndroidNativeBufferParams,
   GetAndroidNativeBufferUsageParams,
   PrependSPSPPSToIDRFramesParams,
   MediaImage,
   DescribeColorFormatParams,
   ConfigureVideoTunnelModeParams,
   DisableAVCReorderParams]

/-! ## Member lists -/

/-- The spelling of a type in a member declaration; for an array member the
spelling of its element type. -/
def CType.spelling : CType → String
  | .OMX_U32 => "OMX_U32"
  | .OMX_VERSIONTYPE => "OMX_VERSIONTYPE"
  | .OMX_BOOL => "OMX_BOOL"
  | .enum n => n
  | .size_t => "size_t"
  | .pointer s => s
  | .reference s => s
  | .array e _ => e.spelling
  | .struct n _ => n

/-- The members as (type spelling, member name) pairs, in declaration order. -/
def Fields.decls : Fields → List (String × String)
  | .nil => []
  | .cons n t rest => (t.spelling, n) :: rest.decls

/-- The member declarations of a struct, in order. -/
def StructDecl.decls (s : StructDecl) : List (String × String) := s.fields.decls

/-- The member names of a struct, in order. -/
def StructDecl.fieldNames (s : StructDecl) : List String := s.decls.map Prod.snd

/-- The declared type of the member of a given name. -/
def Fields.typeOf (field : String) : Fields → Option CType
  | .nil => none
  | .cons n t rest => if n = field then some t else rest.typeOf field

/-- The number of elements of an array member, if the member is an array. -/
def Fields.arrayCount (field : String) : Fields → Option Nat
  | .nil => none
  | .cons n t rest =>
    if n = field then
      match t with
      | .array _ c => some c
      | _ => none
    else rest.arrayCount field

/-! ## Layout -/

/-- The least multiple of `a` that is at least `n`. -/
def alignUp (n a : Nat) : Nat := (n + a - 1) / a * a

mutual
/-- The alignment of a type.  A reference member occupies the slot of a
pointer; an array has the alignment of its element and a struct that of its
most aligned member. -/
def CType.align (dm : DataModel) : CType → Nat
  | .OMX_U32 => omxScalarBytes
  | .OMX_VERSIONTYPE => omxScalarBytes
  | .OMX_BOOL => omxScalarBytes
  | .enum _ => omxScalarBytes
  | .size_t => dm.sizeTBytes
  | .pointer _ => dm.pointerBytes
  | .reference _ => dm.pointerBytes
  | .array e _ => e.align dm
  | .struct _ fs => fs.align dm
/-- The largest alignment among the members. -/
def Fields.align (dm : DataModel) : Fields → Nat
  | .nil => 1
  | .cons _ t rest => max (t.align dm) (rest.align dm)
end

mutual
/-- The size of a type in bytes.  A struct ends at the end of its last member,
rounded up to the alignment of the struct. -/
def CType.size (dm : DataModel) : CType → Nat
  | .OMX_U32 => omxScalarBytes
  | .OMX_VERSIONTYPE => omxScalarBytes
  | .OMX_BOOL => omxScalarBytes
  | .enum _ => omxScalarBytes
  | .size_t => dm.sizeTBytes
  | .pointer _ => dm.pointerBytes
  | .reference _ => dm.pointerBytes
  | .array e n => n * e.size dm
  | .struct _ fs => alignUp (fs.endOffset dm 0) (fs.align dm)
/-- The offset just past the last member when the members are placed from
offset `cur` on, each at the next offset that satisfies its alignment. -/
def Fields.endOffset (dm : DataModel) (cur : Nat) : Fields → Nat
  | .nil => cur
  | .cons _ t rest => rest.endOffset dm (alignUp cur (t.align dm) + t.size dm)
end

/-- A placed member: its name, its byte offset in the struct and its size. -/
structure Slot where
  name : String
  offset : Nat
  size : Nat
deriving DecidableEq, Repr

/-- The members placed from offset `cur` on, in declaration order. -/
def Fields.slots (dm : DataModel) (cur : Nat) : Fields → List Slot
  | .nil => []
  | .cons n t rest =>
    ⟨n, alignUp cur (t.align dm), t.size dm⟩ ::
      rest.slots dm (alignUp cur (t.align dm) + t.size dm)

/-- The placed members of a struct. -/
def StructDecl.slots (dm : DataModel) (s : StructDecl) : List Slot :=
  s.fields.slots dm 0

/-- The value of `sizeof` for a struct. -/
def StructDecl.size (dm : DataModel) (s : StructDecl) : Nat := s.type.size dm

/-- The byte offsets of the members of a struct, in declaration order. -/
def StructDecl.offsets (dm : DataModel) (s : StructDecl) : List Nat :=
  (s.slots dm).map Slot.offset

/-- The placed member of a given name. -/
def StructDecl.slotOf (dm : DataModel) (s : StructDecl) (field : String) : Option Slot :=
  (s.slots dm).find? fun sl => sl.name == field

/-- The value of `offsetof` for a member of a struct. -/
def StructDecl.offsetOf (dm : DataModel) (s : StructDecl) (field : String) : Option Nat :=
  (s.slotOf dm field).map Slot.offset

/-- Two placed members share at least one byte. -/
def Slot.overlaps (a b : Slot) : Prop :=
  a.offset < b.offset + b.size ∧ b.offset < a.offset + a.size

instance (a b : Slot) : Decidable (a.overlaps b) := by
  unfold Slot.overlaps; infer_instance

mutual
/-- No `size_t`, pointer or reference occurs in the type: every scalar in it
has a width that does not depend on the data model. -/
def CType.fixedWidth : CType → Bool
  | .OMX_U32 => true
  | .OMX_VERSIONTYPE => true
  | .OMX_BOOL => true
  | .enum _ => true
  | .size_t => false
  | .pointer _ => false
  | .reference _ => false
  | .array e _ => e.fixedWidth
  | .struct _ fs => fs.fixedWidth
/-- Every member has a type of fixed width. -/
def Fields.fixedWidth : Fields → Bool
  | .nil => true
  | .cons _ t rest => t.fixedWidth && rest.fixedWidth
end

/-! ## Reading a member out of the bytes of a block -/

/-- The byte order of the target. -/
inductive Endian where
  | little
  | big
deriving DecidableEq, Repr

/-- The unsigned integer held by the `width` bytes from offset `off` on, least
significant byte first.  Bytes past the end of the block read as zero. -/
def readLE (bytes : List Nat) (off : Nat) : Nat → Nat
  | 0 => 0
  | w + 1 => bytes.getD off 0 + 256 * readLE bytes (off + 1) w

/-- The unsigned integer held by the `width` bytes from offset `off` on, most
significant byte first. -/
def readBE (bytes : List Nat) (off : Nat) : Nat → Nat
  | 0 => 0
  | w + 1 => bytes.getD off 0 * 256 ^ w + readBE bytes (off + 1) w

/-- The unsigned integer held by `width` bytes at `off` in the given byte order. -/
def readScalar (e : Endian) (bytes : List Nat) (off width : Nat) : Nat :=
  match e with
  | .little => readLE bytes off width
  | .big => readBE bytes off width

/-- The value of a scalar member of a block: the integer held by the bytes of
its slot.  There is no value for a name that is not a member. -/
def StructDecl.load (dm : DataModel) (e : Endian) (s : StructDecl) (field : String)
    (bytes : List Nat) : Option Nat :=
  (s.slotOf dm field).map fun sl => readScalar e bytes sl.offset sl.size

/-- An index into an array member is within the bounds of the array. -/
def StructDecl.indexInBounds (s : StructDecl) (field : String) (i : Nat) : Bool :=
  match s.fields.arrayCount field with
  | some n => decide (i < n)
  | none => false

/-! ## Writing the members into the bytes of a block -/

/-- The `width` bytes that hold the unsigned integer `v`, least significant
byte first. -/
def writeLE (v : Nat) : Nat → List Nat
  | 0 => []
  | w + 1 => v % 256 :: writeLE (v / 256) w

/-- The `width` bytes that hold the unsigned integer `v`, most significant
byte first. -/
def writeBE (v : Nat) : Nat → List Nat
  | 0 => []
  | w + 1 => v / 256 ^ w % 256 :: writeBE v w

/-- The `width` bytes that hold `v` in the given byte order. -/
def writeScalar (e : Endian) (v : Nat) (width : Nat) : List Nat :=
  match e with
  | .little => writeLE v width
  | .big => writeBE v width

/-- The values fit the members: there is one value for each placed member, and
each value is an unsigned integer of the width of its member.  The value of a
pointer or reference member is the address its slot holds; the value of a
member of struct or array type is the integer spelled by all its bytes. -/
def valuesFit : List Slot → List Nat → Bool
  | [], [] => true
  | sl :: sls, v :: vs => decide (v < 256 ^ sl.size) && valuesFit sls vs
  | _, _ => false

/-- The bytes of the members from offset `cur` on, in declaration order: before
each member the padding up to its offset (zero bytes), then the bytes of its
value at its width. -/
def storeSlots (e : Endian) (cur : Nat) : List Slot → List Nat → List Nat
  | sl :: sls, v :: vs =>
    List.replicate (sl.offset - cur) 0 ++
      (writeScalar e v sl.size ++ storeSlots e (sl.offset + sl.size) sls vs)
  | _, _ => []

/-- The byte sequence of a block of the struct that holds the given member
values: the members in declaration order, each at its offset and width, and
the tail padding up to the size of the struct. -/
def StructDecl.store (dm : DataModel) (e : Endian) (s : StructDecl) (vals : List Nat) :
    List Nat :=
  storeSlots e 0 (s.slots dm) vals ++
    List.replicate (s.size dm - (storeSlots e 0 (s.slots dm) vals).length) 0

/-- The values held by the given placed members in a byte sequence. -/
def loadSlots (e : Endian) (bytes : List Nat) (slots : List Slot) : List Nat :=
  slots.map fun sl => readScalar e bytes sl.offset sl.size

/-- The values of all the members of a block, in declaration order. -/
def StructDecl.loadAll (dm : DataModel) (e : Endian) (s : StructDecl) (bytes : List Nat) :
    List Nat :=
  loadSlots e bytes (s.slots dm)

/-- The placed members follow one another from offset `cur` on without
sharing a byte. -/
def wellPlaced (cur : Nat) : List Slot → Bool
  | [] => true
  | sl :: sls => decide (cur ≤ sl.offset) && wellPlaced (sl.offset + sl.size) sls

/-- The offset just past the last placed member. -/
def slotsEnd (cur : Nat) : List Slot → Nat
  | [] => cur
  | sl :: sls => slotsEnd (sl.offset + sl.size) sls

mutual
/-- The scalars a type is made of, in order: each with its path below the
object, its offset from the start of the object and its width.  A pointer and
a reference are scalars: the address their slot holds. -/
def CType.leaves (dm : DataModel) : CType → List Slot
  | .OMX_U32 => [⟨"", 0, omxScalarBytes⟩]
  | .OMX_VERSIONTYPE => [⟨"", 0, omxScalarBytes⟩]
  | .OMX_BOOL => [⟨"", 0, omxScalarBytes⟩]
  | .enum _ => [⟨"", 0, omxScalarBytes⟩]
  | .size_t => [⟨"", 0, dm.sizeTBytes⟩]
  | .pointer _ => [⟨"", 0, dm.pointerBytes⟩]
  | .reference _ => [⟨"", 0, dm.pointerBytes⟩]
  | .array e n =>
    (List.range n).flatMap fun i =>
      (e.leaves dm).map fun sl =>
        ⟨"[" ++ toString i ++ "]" ++ sl.name, i * e.size dm + sl.offset, sl.size⟩
  | .struct _ fs => fs.leaves dm 0
/-- The scalars of the members placed from offset `cur` on. -/
def Fields.leaves (dm : DataModel) (cur : Nat) : Fields → List Slot
  | .nil => []
  | .cons n t rest =>
    ((t.leaves dm).map fun sl =>
      ⟨"." ++ n ++ sl.name, alignUp cur (t.align dm) + sl.offset, sl.size⟩) ++
      rest.leaves dm (alignUp cur (t.align dm) + t.size dm)
end

/-- The scalars of a struct, those of its members of struct and array type
included, each at its offset in the struct. -/
def StructDecl.leaves (dm : DataModel) (s : StructDecl) : List Slot :=
  s.fields.leaves dm 0

/-- The byte sequence of a block of the struct that holds the given values of
its scalars; every padding byte is zero. -/
def StructDecl.storeScalars (dm : DataModel) (e : Endian) (s : StructDecl)
    (vals : List Nat) : List Nat :=
  storeSlots e 0 (s.leaves dm) vals ++
    List.replicate (s.size dm - (storeSlots e 0 (s.leaves dm) vals).length) 0

/-- The values of all the scalars of a block, in order. -/
def StructDecl.loadScalars (dm : DataModel) (e : Endian) (s : StructDecl)
    (bytes : List Nat) : List Nat :=
  loadSlots e bytes (s.leaves dm)

/-! ## Layout of types of fixed width -/

mutual
theorem CType.layout_of_fixedWidth (dm dm' : DataModel) :
    ∀ t : CType, t.fixedWidth = true →
      t.align dm = t.align dm' ∧ t.size dm = t.size dm'
  | .OMX_U32, _ => ⟨rfl, rfl⟩
  | .OMX_VERSIONTYPE, _ => ⟨rfl, rfl⟩
  | .OMX_BOOL, _ => ⟨rfl, rfl⟩
  | .enum _, _ => ⟨rfl, rfl⟩
  | .size_t, h => by simp [CType.fixedWidth] at h
  | .pointer _, h => by simp [CType.fixedWidth] at h
  | .reference _, h => by simp [CType.fixedWidth] at h
  | .array e n, h => by
    have ih := CType.layout_of_fixedWidth dm dm' e (by simpa [CType.fixedWidth] using h)
    simp [CType.align, CType.size, ih.1, ih.2]
  | .struct _ fs, h => by
    have ih := Fields.members_layout_of_fixedWidth dm dm' fs (by simpa [CType.fixedWidth] using h)
    simp [CType.align, CType.size, ih.1, (ih.2 0).1]
theorem Fields.members_layout_of_fixedWidth (dm dm' : DataModel) :
    ∀ fs : Fields, fs.fixedWidth = true →
      fs.align dm = fs.align dm' ∧
        ∀ cur, fs.endOffset dm cur = fs.endOffset dm' cur ∧
          fs.slots dm cur = fs.slots dm' cur
  | .nil, _ => ⟨rfl, fun _ => ⟨rfl, rfl⟩⟩
  | .cons n t rest, h => by
    have h2 : t.fixedWidth = true ∧ rest.fixedWidth = true := by
      simpa [Fields.fixedWidth] using h
    have iht := CType.layout_of_fixedWidth dm dm' t h2.1
    have ihr := Fields.members_layout_of_fixedWidth dm dm' rest h2.2
    refine ⟨by simp [Fields.align, iht.1, ihr.1], fun cur => ?_⟩
    simp [Fields.endOffset, Fields.slots, iht.1, iht.2, (ihr.2 _).1, (ihr.2 _).2]
end

/-! ## Auxiliary facts -/

theorem le_alignUp (n a : Nat) (ha : 0 < a) : n ≤ alignUp n a := by
  unfold alignUp
  have h1 := Nat.div_add_mod (n + a - 1) a
  have h2 := Nat.mod_lt (n + a - 1) ha
  rw [Nat.mul_comm]
  generalize a * ((n + a - 1) / a) = x at h1
  omega

theorem getD_eq_zero_of_all_zero (bytes : List Nat) (h : ∀ b ∈ bytes, b = 0) (i : Nat) :
    bytes.getD i 0 = 0 := by
  induction bytes generalizing i with
  | nil => simp
  | cons b rest ih =>
    cases i with
    | zero => simpa using h b (List.mem_cons_self _ _)
    | succ j => simpa using ih (fun c hc => h c (List.mem_cons_of_mem _ hc)) j

theorem readLE_eq_zero_of_all_zero (bytes : List Nat) (h : ∀ b ∈ bytes, b = 0)
    (off width : Nat) : readLE bytes off width = 0 := by
  induction width generalizing off with
  | zero => rfl
  | succ w ih =>
    show bytes.getD off 0 + 256 * readLE bytes (off + 1) w = 0
    rw [getD_eq_zero_of_all_zero bytes h, ih]

theorem readBE_eq_zero_of_all_zero (bytes : List Nat) (h : ∀ b ∈ bytes, b = 0)
    (off width : Nat) : readBE bytes off width = 0 := by
  induction width generalizing off with
  | zero => rfl
  | succ w ih =>
    show bytes.getD off 0 * 256 ^ w + readBE bytes (off + 1) w = 0
    rw [getD_eq_zero_of_all_zero bytes h, ih, Nat.zero_mul]

theorem readScalar_eq_zero_of_all_zero (e : Endian) (bytes : List Nat)
    (h : ∀ b ∈ bytes, b = 0) (off width : Nat) : readScalar e bytes off width = 0 := by
  cases e
  · exact readLE_eq_zero_of_all_zero bytes h off width
  · exact readBE_eq_zero_of_all_zero bytes h off width

theorem MediaImage_align_pos (dm : DataModel) : 0 < MediaImage.type.align dm := by
  have h : omxScalarBytes ≤ MediaImage.type.align dm := by
    simp only [StructDecl.type, MediaImage, CType.align, Fields.align]
    exact Nat.le_max_left _ _
  exact Nat.lt_of_lt_of_le (by decide) h

/-! ## Writing and reading back -/

theorem getD_append_add (A B : List Nat) (k : Nat) :
    (A ++ B).getD (A.length + k) 0 = B.getD k 0 := by
  induction A with
  | nil => simp
  | cons a A ih =>
    have h : (a :: A).length + k = (A.length + k) + 1 := by simp; omega
    rw [h]
    simpa using ih

theorem readLE_append_add (A B : List Nat) (k w : Nat) :
    readLE (A ++ B) (A.length + k) w = readLE B k w := by
  induction w generalizing k with
  | zero => rfl
  | succ w ih =>
    show (A ++ B).getD (A.length + k) 0 + 256 * readLE (A ++ B) (A.length + k + 1) w =
      B.getD k 0 + 256 * readLE B (k + 1) w
    rw [getD_append_add, Nat.add_assoc, ih]

theorem readBE_append_add (A B : List Nat) (k w : Nat) :
    readBE (A ++ B) (A.length + k) w = readBE B k w := by
  induction w generalizing k with
  | zero => rfl
  | succ w ih =>
    show (A ++ B).getD (A.length + k) 0 * 256 ^ w + readBE (A ++ B) (A.length + k + 1) w =
      B.getD k 0 * 256 ^ w + readBE B (k + 1) w
    rw [getD_append_add, Nat.add_assoc, ih]

theorem readLE_writeLE (w v : Nat) (X : List Nat) :
    readLE (writeLE v w ++ X) 0 w = v % 256 ^ w := by
  induction w generalizing v with
  | zero => simp [readLE, Nat.mod_one]
  | succ w ih =>
    have h := readLE_append_add [v % 256] (writeLE (v / 256) w ++ X) 0 w
    simp only [List.length_singleton, List.singleton_append] at h
    show (v % 256 :: (writeLE (v / 256) w ++ X)).getD 0 0 +
      256 * readLE (v % 256 :: (writeLE (v / 256) w ++ X)) (0 + 1) w = v % 256 ^ (w + 1)
    rw [Nat.add_comm 0 1, h, ih, Nat.pow_succ', Nat.mod_mul]
    rfl

theorem readBE_writeBE (w v : Nat) (X : List Nat) :
    readBE (writeBE v w ++ X) 0 w = v % 256 ^ w := by
  induction w with
  | zero => simp [readBE, Nat.mod_one]
  | succ w ih =>
    have h := readBE_append_add [v / 256 ^ w % 256] (writeBE v w ++ X) 0 w
    simp only [List.length_singleton, List.singleton_append] at h
    show (v / 256 ^ w % 256 :: (writeBE v w ++ X)).getD 0 0 * 256 ^ w +
      readBE (v / 256 ^ w % 256 :: (writeBE v w ++ X)) (0 + 1) w = v % 256 ^ (w + 1)
    rw [Nat.add_comm 0 1, h, ih, Nat.mod_pow_succ, Nat.add_comm, Nat.mul_comm]
    rfl

theorem length_writeScalar (e : Endian) (v w : Nat) : (writeScalar e v w).length = w := by
  cases e
  · show (writeLE v w).length = w
    induction w generalizing v with
    | zero => rfl
    | succ w ih => simp [writeLE, ih]
  · show (writeBE v w).length = w
    induction w with
    | zero => rfl
    | succ w ih => simp [writeBE, ih]

theorem writeScalar_lt (e : Endian) (v w : Nat) : ∀ b ∈ writeScalar e v w, b < 256 := by
  cases e
  · show ∀ b ∈ writeLE v w, b < 256
    induction w generalizing v with
    | zero => simp [writeLE]
    | succ w ih =>
      intro b hb
      simp only [writeLE, List.mem_cons] at hb
      rcases hb with rfl | hb
      · exact Nat.mod_lt _ (by decide)
      · exact ih _ b hb
  · show ∀ b ∈ writeBE v w, b < 256
    induction w with
    | zero => simp [writeBE]
    | succ w ih =>
      intro b hb
      simp only [writeBE, List.mem_cons] at hb
      rcases hb with rfl | hb
      · exact Nat.mod_lt _ (by decide)
      · exact ih b hb

theorem readScalar_writeScalar (e : Endian) (A X : List Nat) (v w : Nat)
    (hv : v < 256 ^ w) : readScalar e (A ++ (writeScalar e v w ++ X)) A.length w = v := by
  cases e
  · show readLE (A ++ (writeLE v w ++ X)) A.length w = v
    have h := readLE_append_add A (writeLE v w ++ X) 0 w
    rw [Nat.add_zero] at h
    rw [h, readLE_writeLE, Nat.mod_eq_of_lt hv]
  · show readBE (A ++ (writeBE v w ++ X)) A.length w = v
    have h := readBE_append_add A (writeBE v w ++ X) 0 w
    rw [Nat.add_zero] at h
    rw [h, readBE_writeBE, Nat.mod_eq_of_lt hv]

theorem loadSlots_storeSlots (e : Endian) (slots : List Slot) :
    ∀ (vals pre tail : List Nat) (cur : Nat), pre.length = cur →
      wellPlaced cur slots = true → valuesFit slots vals = true →
      loadSlots e (pre ++ (storeSlots e cur slots vals ++ tail)) slots = vals := by
  induction slots with
  | nil =>
    intro vals pre tail cur _ _ hf
    cases vals with
    | nil => rfl
    | cons v vs => simp [valuesFit] at hf
  | cons sl sls ih =>
    intro vals pre tail cur hpre hw hf
    cases vals with
    | nil => simp [valuesFit] at hf
    | cons v vs =>
      simp only [wellPlaced, valuesFit, Bool.and_eq_true, decide_eq_true_eq] at hw hf
      have hA : (pre ++ List.replicate (sl.offset - cur) 0).length = sl.offset := by
        simp [hpre]; omega
      have hA2 : ((pre ++ List.replicate (sl.offset - cur) 0) ++
          writeScalar e v sl.size).length = sl.offset + sl.size := by
        rw [List.length_append, hA, length_writeScalar]
      have hbytes : pre ++ (storeSlots e cur (sl :: sls) (v :: vs) ++ tail) =
          (pre ++ List.replicate (sl.offset - cur) 0) ++
            (writeScalar e v sl.size ++ (storeSlots e (sl.offset + sl.size) sls vs ++ tail)) := by
        simp [storeSlots, List.append_assoc]
      have hbytes2 : pre ++ (storeSlots e cur (sl :: sls) (v :: vs) ++ tail) =
          ((pre ++ List.replicate (sl.offset - cur) 0) ++ writeScalar e v sl.size) ++
            (storeSlots e (sl.offset + sl.size) sls vs ++ tail) := by
        simp [storeSlots, List.append_assoc]
      have hhead : readScalar e (pre ++ (storeSlots e cur (sl :: sls) (v :: vs) ++ tail))
          sl.offset sl.size = v := by
        rw [hbytes]
        have h := readScalar_writeScalar e (pre ++ List.replicate (sl.offset - cur) 0)
          (storeSlots e (sl.offset + sl.size) sls vs ++ tail) v sl.size hf.1
        rw [hA] at h
        exact h
      have htail := ih vs _ tail (sl.offset + sl.size) hA2 hw.2 hf.2
      rw [← hbytes2] at htail
      show readScalar e _ sl.offset sl.size :: loadSlots e _ sls = v :: vs
      rw [hhead, htail]

theorem le_slotsEnd (slots : List Slot) :
    ∀ cur, wellPlaced cur slots = true → cur ≤ slotsEnd cur slots := by
  induction slots with
  | nil => intro cur _; exact Nat.le_refl _
  | cons sl sls ih =>
    intro cur hw
    simp only [wellPlaced, Bool.and_eq_true, decide_eq_true_eq] at hw
    have := ih _ hw.2
    show cur ≤ slotsEnd (sl.offset + sl.size) sls
    omega

theorem length_storeSlots (e : Endian) (slots : List Slot) :
    ∀ (vals : List Nat) (cur : Nat), wellPlaced cur slots = true →
      valuesFit slots vals = true →
      cur + (storeSlots e cur slots vals).length = slotsEnd cur slots := by
  induction slots with
  | nil =>
    intro vals cur _ hf
    cases vals with
    | nil => rfl
    | cons v vs => simp [valuesFit] at hf
  | cons sl sls ih =>
    intro vals cur hw hf
    cases vals with
    | nil => simp [valuesFit] at hf
    | cons v vs =>
      simp only [wellPlaced, valuesFit, Bool.and_eq_true, decide_eq_true_eq] at hw hf
      have h := ih vs _ hw.2 hf.2
      simp only [storeSlots, slotsEnd, List.length_append, List.length_replicate,
        length_writeScalar]
      omega

theorem storeSlots_lt (e : Endian) (slots : List Slot) :
    ∀ (vals : List Nat) (cur : Nat), ∀ b ∈ storeSlots e cur slots vals, b < 256 := by
  induction slots with
  | nil => intro vals cur b hb; simp [storeSlots] at hb
  | cons sl sls ih =>
    intro vals cur b hb
    cases vals with
    | nil => simp [storeSlots] at hb
    | cons v vs =>
      simp only [storeSlots, List.mem_append, List.mem_replicate] at hb
      rcases hb with ⟨_, rfl⟩ | hb | hb
      · decide
      · exact writeScalar_lt e v sl.size b hb
      · exact ih vs _ b hb

theorem header_slots_wellPlaced :
    ∀ s ∈ structs, ∀ dm ∈ [ILP32, LP64],
      wellPlaced 0 (s.slots dm) = true ∧ slotsEnd 0 (s.slots dm) ≤ s.size dm ∧
        s.fieldNames.map (s.slotOf dm) = (s.slots dm).map some := by
  decide

theorem header_leaves_wellPlaced :
    ∀ s ∈ structs, ∀ dm ∈ [ILP32, LP64],
      wellPlaced 0 (s.leaves dm) = true ∧ slotsEnd 0 (s.leaves dm) ≤ s.size dm := by
  decide

theorem load_store_of_wellPlaced (e : Endian) (slots : List Slot) (size : Nat)
    (hw : wellPlaced 0 slots = true) (hend : slotsEnd 0 slots ≤ size) (vals : List Nat)
    (hf : valuesFit slots vals = true) :
    (storeSlots e 0 slots vals ++
        List.replicate (size - (storeSlots e 0 slots vals).length) 0).length = size ∧
    (∀ b ∈ storeSlots e 0 slots vals ++
        List.replicate (size - (storeSlots e 0 slots vals).length) 0, b < 256) ∧
    loadSlots e (storeSlots e 0 slots vals ++
        List.replicate (size - (storeSlots e 0 slots vals).length) 0) slots = vals := by
  refine ⟨?_, ?_, ?_⟩
  · have h := length_storeSlots e slots vals 0 hw hf
    rw [List.length_append, List.length_replicate]
    omega
  · intro b hb
    rw [List.mem_append, List.mem_replicate] at hb
    rcases hb with hb | ⟨_, rfl⟩
    · exact storeSlots_lt e slots vals 0 b hb
    · decide
  · exact loadSlots_storeSlots e slots vals [] _ 0 rfl hw hf

theorem load_by_name_eq (dm : DataModel) (e : Endian) (s : StructDecl) (bytes : List Nat)
    (hn : s.fieldNames.map (s.slotOf dm) = (s.slots dm).map some) :
    s.fieldNames.map (fun f => s.load dm e f bytes) = (s.loadAll dm e bytes).map some := by
  have h1 : s.fieldNames.map (fun f => s.load dm e f bytes) =
      (s.fieldNames.map (s.slotOf dm)).map
        (Option.map fun sl => readScalar e bytes sl.offset sl.size) := by
    rw [List.map_map]
    rfl
  rw [h1, hn, List.map_map]
  unfold StructDecl.loadAll loadSlots
  rw [List.map_map]
  rfl

/-! ## The size and version header -/

/-- C1, as stated, fails: `VideoDecoderOutputMetaData` is one of the eleven
structs and its first two members are `eType` and `pHandle`, not `nSize` and
`nVersion`; so it is not true that every struct of the header begins with
`OMX_U32 nSize; OMX_VERSIONTYPE nVersion;`. -/
theorem VideoDecoderOutputMetaData_has_no_size_version_header :
    VideoDecoderOutputMetaData ∈ structs ∧
    VideoDecoderOutputMetaData.decls.take 2 =
      [("MetadataBufferType", "eType"), ("buffer_handle_t", "pHandle")] ∧
    ¬ ∀ s ∈ structs,
        s.decls.take 2 = [("OMX_U32", "nSize"), ("OMX_VERSIONTYPE", "nVersion")] := by
  refine ⟨by simp [structs], by decide, by decide⟩

/-- C1, amended: the header declares eleven structs in `namespace android`;
each of them other than `VideoDecoderOutputMetaData` and `MediaImage` has
`nSize` of type `OMX_U32` as its first member and `nVersion` of type
`OMX_VERSIONTYPE` as its second, whereas `VideoDecoderOutputMetaData` begins
with `eType`, `pHandle` and `MediaImage` with `mType`, `mNumPlanes`. -/
theorem parameter_structs_begin_with_nSize_nVersion :
    structs.length = 11 ∧
    (∀ s ∈ structs, s.name ≠ "VideoDecoderOutputMetaData" → s.name ≠ "MediaImage" →
      s.decls.take 2 = [("OMX_U32", "nSize"), ("OMX_VERSIONTYPE", "nVersion")]) ∧
    VideoDecoderOutputMetaData.decls.take 2 =
      [("MetadataBufferType", "eType"), ("buffer_handle_t", "pHandle")] ∧
    MediaImage.decls.take 2 = [("Type", "mType"), ("size_t", "mNumPlanes")] := by
  decide

/-- The amended C1 at `UseAndroidNativeBufferParams`, one of the nine structs
it speaks of. -/
theorem parameter_structs_begin_with_nSize_nVersion_witness :
    UseAndroidNativeBufferParams ∈ structs ∧
    UseAndroidNativeBufferParams.name ≠ "VideoDecoderOutputMetaData" ∧
    UseAndroidNativeBufferParams.name ≠ "MediaImage" ∧
    UseAndroidNativeBufferParams.decls.take 2 =
      [("OMX_U32", "nSize"), ("OMX_VERSIONTYPE", "nVersion")] :=
  ⟨by simp [structs], by decide, by decide,
    parameter_structs_begin_with_nSize_nVersion.2.1 UseAndroidNativeBufferParams
      (by simp [structs]) (by decide) (by decide)⟩

/-! ## Dependence of the layout on the data model -/

/-- C2, as stated, fails: `MediaImage` is 80 bytes with `mNumPlanes` at offset
4 under ILP32, and 160 bytes with `mNumPlanes` at offset 8 under LP64; so it
is not true that every struct of the header has the same size and member
offsets under the two data models. -/
theorem MediaImage_layout_depends_on_data_model :
    MediaImage ∈ structs ∧
    MediaImage.size ILP32 = 80 ∧ MediaImage.size LP64 = 160 ∧
    MediaImage.offsets ILP32 = [0, 4, 8, 12, 16, 20] ∧
    MediaImage.offsets LP64 = [0, 8, 16, 24, 32, 40] ∧
    ¬ ∀ s ∈ structs, s.size ILP32 = s.size LP64 ∧ s.offsets ILP32 = s.offsets LP64 := by
  refine ⟨by simp [structs], by decide, by decide, by decide, by decide, by decide⟩

/-- C2, amended: a struct all of whose members are `OMX_U32`,
`OMX_VERSIONTYPE`, `OMX_BOOL` or enums (in the header:
`EnableAndroidNativeBuffersParams`, `StoreMetaDataInBuffersParams`,
`PrepareForAdaptivePlaybackParams`, `GetAndroidNativeBufferUsageParams`,
`PrependSPSPPSToIDRFramesParams` and `DisableAVCReorderParams`) has the same
size and the same member offsets under every data model, ILP32 and LP64
included; each of the five other structs of the header, which have a `size_t`,
pointer or reference member, is larger under LP64 than under ILP32 and has
different member offsets. -/
theorem layout_independent_of_data_model_iff_fixed_width :
    (∀ (s : StructDecl) (dm dm' : DataModel), s.fields.fixedWidth = true →
      s.size dm = s.size dm' ∧ s.slots dm = s.slots dm') ∧
    (structs.filter fun s => s.fields.fixedWidth).map StructDecl.name =
      ["EnableAndroidNativeBuffersParams", "StoreMetaDataInBuffersParams",
       "PrepareForAdaptivePlaybackParams", "GetAndroidNativeBufferUsageParams",
       "PrependSPSPPSToIDRFramesParams", "DisableAVCReorderParams"] ∧
    (structs.filter fun s => !s.fields.fixedWidth).map StructDecl.name =
      ["VideoDecoderOutputMetaData", "UseAndroidNativeBufferParams", "MediaImage",
       "DescribeColorFormatParams", "ConfigureVideoTunnelModeParams"] ∧
    (∀ s ∈ structs, s.fields.fixedWidth = false →
      s.size ILP32 < s.size LP64 ∧ s.offsets ILP32 ≠ s.offsets LP64) := by
  refine ⟨fun s dm dm' h => ?_, by decide, by decide, by decide⟩
  have hs := CType.layout_of_fixedWidth dm dm' s.type (by simpa [StructDecl.type, CType.fixedWidth] using h)
  have hf := Fields.members_layout_of_fixedWidth dm dm' s.fields h
  exact ⟨hs.2, (hf.2 0).2⟩

/-- The amended C2 at `PrepareForAdaptivePlaybackParams` under ILP32 and LP64,
and at `ConfigureVideoTunnelModeParams`, which has a pointer member. -/
theorem layout_independent_of_data_model_iff_fixed_width_witness :
    PrepareForAdaptivePlaybackParams.fields.fixedWidth = true ∧
    (PrepareForAdaptivePlaybackParams.size ILP32 = PrepareForAdaptivePlaybackParams.size LP64 ∧
      PrepareForAdaptivePlaybackParams.slots ILP32 =
        PrepareForAdaptivePlaybackParams.slots LP64) ∧
    ConfigureVideoTunnelModeParams ∈ structs ∧
    ConfigureVideoTunnelModeParams.fields.fixedWidth = false ∧
    (ConfigureVideoTunnelModeParams.size ILP32 < ConfigureVideoTunnelModeParams.size LP64 ∧
      ConfigureVideoTunnelModeParams.offsets ILP32 ≠
        ConfigureVideoTunnelModeParams.offsets LP64) :=
  ⟨by decide,
    layout_independent_of_data_model_iff_fixed_width.1 PrepareForAdaptivePlaybackParams
      ILP32 LP64 (by decide),
    by simp [structs], by decide,
    layout_independent_of_data_model_iff_fixed_width.2.2.2 ConfigureVideoTunnelModeParams
      (by simp [structs]) (by decide)⟩

/-! ## The planes of `MediaImage` -/

/-- C4: the enumerators of `MediaImage::PlaneIndex` are `Y = 0`, `U = 1`,
`V = 2` and `MAX_NUM_PLANES = 3`; `mPlane` is an array of exactly
`MAX_NUM_PLANES = 3` `PlaneInfo` entries (so a `MediaImage` describes at most
three planes); for each plane index `p` among `Y`, `U`, `V` the access
`mPlane[p]` is within bounds, and `mPlane[MAX_NUM_PLANES]` is not. -/
theorem mPlane_holds_exactly_three_planes :
    MediaImage.PlaneIndex.values = [("Y", 0), ("U", 1), ("V", 2), ("MAX_NUM_PLANES", 3)] ∧
    MediaImage.MAX_NUM_PLANES = 3 ∧
    MediaImage.fields.arrayCount "mPlane" = some MediaImage.MAX_NUM_PLANES ∧
    MediaImage.decls.getLast? = some ("PlaneInfo", "mPlane") ∧
    (∀ dm : DataModel, (MediaImage.slotOf dm "mPlane").map Slot.size =
      some (3 * MediaImage.PlaneInfo.size dm)) ∧
    (∀ p ∈ ["Y", "U", "V"], ∃ i, MediaImage.PlaneIndex.valueOf p = some i ∧
      MediaImage.indexInBounds "mPlane" i = true) ∧
    MediaImage.indexInBounds "mPlane" MediaImage.MAX_NUM_PLANES = false := by
  refine ⟨by decide, by decide, by decide, by decide, fun dm => rfl, ?_, by decide⟩
  intro p hp
  simp only [List.mem_cons, List.mem_singleton, List.not_mem_nil, or_false] at hp
  rcases hp with rfl | rfl | rfl
  · exact ⟨0, by decide, by decide⟩
  · exact ⟨1, by decide, by decide⟩
  · exact ⟨2, by decide, by decide⟩

/-- C4 at the plane index `V` and under LP64. -/
theorem mPlane_holds_exactly_three_planes_witness :
    "V" ∈ ["Y", "U", "V"] ∧
    (∃ i, MediaImage.PlaneIndex.valueOf "V" = some i ∧
      MediaImage.indexInBounds "mPlane" i = true) ∧
    (MediaImage.slotOf LP64 "mPlane").map Slot.size =
      some (3 * MediaImage.PlaneInfo.size LP64) :=
  ⟨by decide, mPlane_holds_exactly_three_planes.2.2.2.2.2.1 "V" (by decide),
    mPlane_holds_exactly_three_planes.2.2.2.2.1 LP64⟩

/-! ## The port toggles and the single-flag blocks -/

/-- C5: `EnableAndroidNativeBuffersParams` and `StoreMetaDataInBuffersParams`
each consist of exactly four members, in the order size, version, port index,
flag (`enable`, resp. `bStoreMetaData`); with the OMX scalars 4 bytes wide the
members lie at offsets 0, 4, 8, 12 and each struct is 16 bytes, whatever the
data model; the two structs have the same member types, offsets and sizes. -/
theorem port_toggle_structs_have_identical_layout :
    EnableAndroidNativeBuffersParams.decls =
      [("OMX_U32", "nSize"), ("OMX_VERSIONTYPE", "nVersion"), ("OMX_U32", "nPortIndex"),
       ("OMX_BOOL", "enable")] ∧
    StoreMetaDataInBuffersParams.decls =
      [("OMX_U32", "nSize"), ("OMX_VERSIONTYPE", "nVersion"), ("OMX_U32", "nPortIndex"),
       ("OMX_BOOL", "bStoreMetaData")] ∧
    ∀ dm : DataModel,
      EnableAndroidNativeBuffersParams.slots dm =
        [⟨"nSize", 0, 4⟩, ⟨"nVersion", 4, 4⟩, ⟨"nPortIndex", 8, 4⟩, ⟨"enable", 12, 4⟩] ∧
      StoreMetaDataInBuffersParams.slots dm =
        [⟨"nSize", 0, 4⟩, ⟨"nVersion", 4, 4⟩, ⟨"nPortIndex", 8, 4⟩,
         ⟨"bStoreMetaData", 12, 4⟩] ∧
      EnableAndroidNativeBuffersParams.offsets dm = [0, 4, 8, 12] ∧
      StoreMetaDataInBuffersParams.offsets dm = [0, 4, 8, 12] ∧
      EnableAndroidNativeBuffersParams.size dm = 16 ∧
      StoreMetaDataInBuffersParams.size dm = 16 ∧
      EnableAndroidNativeBuffersParams.decls.map Prod.fst =
        StoreMetaDataInBuffersParams.decls.map Prod.fst ∧
      (EnableAndroidNativeBuffersParams.slots dm).map (fun sl => (sl.offset, sl.size)) =
        (StoreMetaDataInBuffersParams.slots dm).map (fun sl => (sl.offset, sl.size)) :=
  ⟨by decide, by decide, fun dm => by
    simp [StructDecl.slots, StructDecl.offsets, StructDecl.size, StructDecl.type,
      StructDecl.decls, Fields.decls, CType.spelling, Fields.slots, Fields.endOffset,
      Fields.align, CType.align, CType.size, alignUp, omxScalarBytes,
      EnableAndroidNativeBuffersParams, StoreMetaDataInBuffersParams]⟩

/-- C8: `PrependSPSPPSToIDRFramesParams` and `DisableAVCReorderParams` carry a
single flag and no port index: each has exactly three members, in the order
`nSize`, `nVersion`, flag (`bEnable`, resp. `bDisable`), at offsets 0, 4, 8,
and is 12 bytes, whatever the data model; the two structs have the same member
types, offsets and sizes. -/
theorem single_flag_structs_have_identical_layout :
    PrependSPSPPSToIDRFramesParams.decls =
      [("OMX_U32", "nSize"), ("OMX_VERSIONTYPE", "nVersion"), ("OMX_BOOL", "bEnable")] ∧
    DisableAVCReorderParams.decls =
      [("OMX_U32", "nSize"), ("OMX_VERSIONTYPE", "nVersion"), ("OMX_BOOL", "bDisable")] ∧
    PrependSPSPPSToIDRFramesParams.fieldNames.contains "nPortIndex" = false ∧
    DisableAVCReorderParams.fieldNames.contains "nPortIndex" = false ∧
    ∀ dm : DataModel,
      PrependSPSPPSToIDRFramesParams.slots dm =
        [⟨"nSize", 0, 4⟩, ⟨"nVersion", 4, 4⟩, ⟨"bEnable", 8, 4⟩] ∧
      DisableAVCReorderParams.slots dm =
        [⟨"nSize", 0, 4⟩, ⟨"nVersion", 4, 4⟩, ⟨"bDisable", 8, 4⟩] ∧
      PrependSPSPPSToIDRFramesParams.offsets dm = [0, 4, 8] ∧
      DisableAVCReorderParams.offsets dm = [0, 4, 8] ∧
      PrependSPSPPSToIDRFramesParams.size dm = 12 ∧
      DisableAVCReorderParams.size dm = 12 ∧
      PrependSPSPPSToIDRFramesParams.decls.map Prod.fst =
        DisableAVCReorderParams.decls.map Prod.fst ∧
      (PrependSPSPPSToIDRFramesParams.slots dm).map (fun sl => (sl.offset, sl.size)) =
        (DisableAVCReorderParams.slots dm).map (fun sl => (sl.offset, sl.size)) :=
  ⟨by decide, by decide, by decide, by decide, fun dm => by
    simp [StructDecl.slots, StructDecl.offsets, StructDecl.size, StructDecl.type,
      StructDecl.decls, Fields.decls, CType.spelling, Fields.slots, Fields.endOffset,
      Fields.align, CType.align, CType.size, alignUp, omxScalarBytes,
      PrependSPSPPSToIDRFramesParams, DisableAVCReorderParams]⟩

/-! ## Tunnel mode and colour format description -/

/-- C6: `ConfigureVideoTunnelModeParams` has exactly six members, in the order
`nSize`, `nVersion`, `nPortIndex`, `bTunneled`, `nAudioHwSync`,
`pSidebandWindow`; the five 4-byte members lie at offsets 0, 4, 8, 12, 16
whatever the data model, and the sideband-window pointer (an `OMX_PTR`) is the
last member, at offset 20 under ILP32 and 24 under LP64. -/
theorem ConfigureVideoTunnelModeParams_members_and_offsets :
    ConfigureVideoTunnelModeParams.decls =
      [("OMX_U32", "nSize"), ("OMX_VERSIONTYPE", "nVersion"), ("OMX_U32", "nPortIndex"),
       ("OMX_BOOL", "bTunneled"), ("OMX_U32", "nAudioHwSync"),
       ("OMX_PTR", "pSidebandWindow")] ∧
    ConfigureVideoTunnelModeParams.fields.typeOf "pSidebandWindow" =
      some (.pointer "OMX_PTR") ∧
    (∀ dm : DataModel,
      ConfigureVideoTunnelModeParams.slots dm =
        [⟨"nSize", 0, 4⟩, ⟨"nVersion", 4, 4⟩, ⟨"nPortIndex", 8, 4⟩, ⟨"bTunneled", 12, 4⟩,
         ⟨"nAudioHwSync", 16, 4⟩,
         ⟨"pSidebandWindow", alignUp 20 dm.pointerBytes, dm.pointerBytes⟩]) ∧
    ConfigureVideoTunnelModeParams.slotOf ILP32 "pSidebandWindow" =
      some ⟨"pSidebandWindow", 20, 4⟩ ∧
    ConfigureVideoTunnelModeParams.slotOf LP64 "pSidebandWindow" =
      some ⟨"pSidebandWindow", 24, 8⟩ := by
  refine ⟨by decide, ?_, fun dm => ?_, by decide, by decide⟩
  · simp [ConfigureVideoTunnelModeParams, Fields.typeOf]
  · simp [StructDecl.slots, Fields.slots, CType.align, CType.size, omxScalarBytes,
      ConfigureVideoTunnelModeParams]
    simp [alignUp]

/-- C7: the members of `DescribeColorFormatParams` are, in order, `nSize`,
`nVersion`, `eColorFormat`, `nFrameWidth`, `nFrameHeight`, `nStride`,
`nSliceHeight`, `sMediaImage`; the five inputs lie at offsets 8, 12, 16, 20,
24 and are 4 bytes each; the output `sMediaImage` is the last member and
starts at an offset of at least 28 (28 under ILP32, 32 under LP64), so its
bytes overlap those of no other member, in particular of no input. -/
theorem DescribeColorFormatParams_inputs_precede_output :
    DescribeColorFormatParams.decls =
      [("OMX_U32", "nSize"), ("OMX_VERSIONTYPE", "nVersion"),
       ("OMX_COLOR_FORMATTYPE", "eColorFormat"), ("OMX_U32", "nFrameWidth"),
       ("OMX_U32", "nFrameHeight"), ("OMX_U32", "nStride"), ("OMX_U32", "nSliceHeight"),
       ("MediaImage", "sMediaImage")] ∧
    (∀ dm : DataModel, ∃ out : Slot,
      DescribeColorFormatParams.slots dm =
        [⟨"nSize", 0, 4⟩, ⟨"nVersion", 4, 4⟩, ⟨"eColorFormat", 8, 4⟩,
         ⟨"nFrameWidth", 12, 4⟩, ⟨"nFrameHeight", 16, 4⟩, ⟨"nStride", 20, 4⟩,
         ⟨"nSliceHeight", 24, 4⟩, out] ∧
      out.name = "sMediaImage" ∧ out.size = MediaImage.size dm ∧ 28 ≤ out.offset ∧
      ∀ sl ∈ DescribeColorFormatParams.slots dm, sl.name ≠ "sMediaImage" →
        sl.offset + sl.size ≤ out.offset ∧ ¬ out.overlaps sl) ∧
    DescribeColorFormatParams.offsetOf ILP32 "sMediaImage" = some 28 ∧
    DescribeColorFormatParams.offsetOf LP64 "sMediaImage" = some 32 := by
  refine ⟨by decide, fun dm => ?_, by decide, by decide⟩
  have hle : 28 ≤ alignUp 28 (MediaImage.type.align dm) :=
    le_alignUp 28 _ (MediaImage_align_pos dm)
  have hslots : DescribeColorFormatParams.slots dm =
      [⟨"nSize", 0, 4⟩, ⟨"nVersion", 4, 4⟩, ⟨"eColorFormat", 8, 4⟩,
       ⟨"nFrameWidth", 12, 4⟩, ⟨"nFrameHeight", 16, 4⟩, ⟨"nStride", 20, 4⟩,
       ⟨"nSliceHeight", 24, 4⟩,
       ⟨"sMediaImage", alignUp 28 (MediaImage.type.align dm), MediaImage.size dm⟩] := by
    have h0 : alignUp 0 4 = 0 := by decide
    have h4 : alignUp 4 4 = 4 := by decide
    have h8 : alignUp 8 4 = 8 := by decide
    have h12 : alignUp 12 4 = 12 := by decide
    have h16 : alignUp 16 4 = 16 := by decide
    have h20 : alignUp 20 4 = 20 := by decide
    have h24 : alignUp 24 4 = 24 := by decide
    simp only [StructDecl.slots, DescribeColorFormatParams, Fields.slots, CType.align,
      CType.size, omxScalarBytes, StructDecl.size, h0, h4, h8, h12, h16, h20, h24]
  refine ⟨⟨"sMediaImage", alignUp 28 (MediaImage.type.align dm), MediaImage.size dm⟩,
    hslots, rfl, rfl, hle, ?_⟩
  intro sl hsl hne
  rw [hslots] at hsl
  simp only [List.mem_cons, List.mem_singleton, List.not_mem_nil, or_false] at hsl
  rcases hsl with rfl | rfl | rfl | rfl | rfl | rfl | rfl | rfl
  all_goals first
    | exact absurd rfl hne
    | (refine ⟨?_, ?_⟩
       · dsimp only
         omega
       · dsimp only [Slot.overlaps]
         omega)

/-- C7 under LP64, at the input `nSliceHeight`. -/
theorem DescribeColorFormatParams_inputs_precede_output_witness :
    ∃ out : Slot,
      DescribeColorFormatParams.slots LP64 =
        [⟨"nSize", 0, 4⟩, ⟨"nVersion", 4, 4⟩, ⟨"eColorFormat", 8, 4⟩,
         ⟨"nFrameWidth", 12, 4⟩, ⟨"nFrameHeight", 16, 4⟩, ⟨"nStride", 20, 4⟩,
         ⟨"nSliceHeight", 24, 4⟩, out] ∧
      (⟨"nSliceHeight", 24, 4⟩ : Slot) ∈ DescribeColorFormatParams.slots LP64 ∧
      (⟨"nSliceHeight", 24, 4⟩ : Slot).name ≠ "sMediaImage" ∧
      (24 + 4 ≤ out.offset ∧ ¬ out.overlaps ⟨"nSliceHeight", 24, 4⟩) := by
  obtain ⟨out, h1, _, _, _, h5⟩ := DescribeColorFormatParams_inputs_precede_output.2.1 LP64
  exact ⟨out, h1, by decide, by decide, h5 ⟨"nSliceHeight", 24, 4⟩ (by decide) (by decide)⟩

/-! ## The port index -/

/-- C9: the structs of the header with an `nPortIndex` member are
`EnableAndroidNativeBuffersParams`, `StoreMetaDataInBuffersParams`,
`PrepareForAdaptivePlaybackParams`, `UseAndroidNativeBufferParams`,
`GetAndroidNativeBufferUsageParams` and `ConfigureVideoTunnelModeParams`; in
each of them `nPortIndex` is the third member, directly after `nSize` and
`nVersion`, and lies at offset 8 under every data model, ILP32 and LP64
included; hence reading the port index of a block of any of these structs is
reading the 4 bytes at offset 8, the same whichever struct the block is. -/
theorem nPortIndex_is_third_member_at_offset_8 :
    (structs.filter fun s => s.fieldNames.contains "nPortIndex").map StructDecl.name =
      ["EnableAndroidNativeBuffersParams", "StoreMetaDataInBuffersParams",
       "PrepareForAdaptivePlaybackParams", "UseAndroidNativeBufferParams",
       "GetAndroidNativeBufferUsageParams", "ConfigureVideoTunnelModeParams"] ∧
    ∀ s ∈ structs, "nPortIndex" ∈ s.fieldNames →
      s.decls.take 3 =
        [("OMX_U32", "nSize"), ("OMX_VERSIONTYPE", "nVersion"), ("OMX_U32", "nPortIndex")] ∧
      ∀ dm : DataModel,
        (s.slots dm).take 3 = [⟨"nSize", 0, 4⟩, ⟨"nVersion", 4, 4⟩, ⟨"nPortIndex", 8, 4⟩] ∧
        s.offsetOf dm "nPortIndex" = some 8 ∧
        ∀ (e : Endian) (bytes : List Nat),
          s.load dm e "nPortIndex" bytes = some (readScalar e bytes 8 4) := by
  refine ⟨by decide, ?_⟩
  intro s hs hmem
  simp only [structs, List.mem_cons, List.mem_singleton, List.not_mem_nil, or_false] at hs
  rcases hs with rfl | rfl | rfl | rfl | rfl | rfl | rfl | rfl | rfl | rfl | rfl
  all_goals first
    | exact absurd hmem (by decide)
    | (refine ⟨by decide, fun dm => ?_⟩
       simp [StructDecl.load, StructDecl.offsetOf, StructDecl.slotOf, StructDecl.slots,
         Fields.slots, CType.align, CType.size, alignUp, omxScalarBytes,
         EnableAndroidNativeBuffersParams, StoreMetaDataInBuffersParams,
         PrepareForAdaptivePlaybackParams, UseAndroidNativeBufferParams,
         GetAndroidNativeBufferUsageParams, ConfigureVideoTunnelModeParams])

/-- C9 at `UseAndroidNativeBufferParams` under LP64, for a little-endian block
whose bytes 8 to 11 hold the port index 1. -/
theorem nPortIndex_is_third_member_at_offset_8_witness :
    UseAndroidNativeBufferParams ∈ structs ∧
    "nPortIndex" ∈ UseAndroidNativeBufferParams.fieldNames ∧
    UseAndroidNativeBufferParams.offsetOf LP64 "nPortIndex" = some 8 ∧
    UseAndroidNativeBufferParams.load LP64 .little "nPortIndex"
        [40, 0, 0, 0, 1, 1, 0, 0, 1, 0, 0, 0] =
      some (readScalar .little [40, 0, 0, 0, 1, 1, 0, 0, 1, 0, 0, 0] 8 4) ∧
    readScalar .little [40, 0, 0, 0, 1, 1, 0, 0, 1, 0, 0, 0] 8 4 = 1 :=
  have h := (nPortIndex_is_third_member_at_offset_8.2 UseAndroidNativeBufferParams
    (by simp [structs]) (by decide)).2 LP64
  ⟨by simp [structs], by decide, h.2.1, h.2.2 .little _, by decide⟩

/-! ## The all-zero `MediaImage` -/

/-- C10: `MEDIA_IMAGE_TYPE_UNKNOWN` has the value 0 and `MEDIA_IMAGE_TYPE_YUV`
the distinct value 1; a `MediaImage` whose bytes are all zero has
`mType = MEDIA_IMAGE_TYPE_UNKNOWN` and `mNumPlanes = 0`, which is what the
header prescribes for a format that is not YUV; and no `MediaImage` with
`mType = MEDIA_IMAGE_TYPE_YUV` has all its bytes zero.  This holds under every
data model and byte order. -/
theorem all_zero_MediaImage_is_unknown_with_no_planes :
    MediaImage.Type_.values =
      [("MEDIA_IMAGE_TYPE_UNKNOWN", 0), ("MEDIA_IMAGE_TYPE_YUV", 1)] ∧
    MediaImage.Type_.valueOf "MEDIA_IMAGE_TYPE_UNKNOWN" = some 0 ∧
    MediaImage.Type_.valueOf "MEDIA_IMAGE_TYPE_YUV" = some 1 ∧
    (∀ (dm : DataModel) (e : Endian) (bytes : List Nat), (∀ b ∈ bytes, b = 0) →
      MediaImage.load dm e "mType" bytes =
        MediaImage.Type_.valueOf "MEDIA_IMAGE_TYPE_UNKNOWN" ∧
      MediaImage.load dm e "mNumPlanes" bytes = some 0) ∧
    (∀ (dm : DataModel) (e : Endian) (bytes : List Nat),
      MediaImage.load dm e "mType" bytes = MediaImage.Type_.valueOf "MEDIA_IMAGE_TYPE_YUV" →
      ¬ ∀ b ∈ bytes, b = 0) := by
  have hT : ∀ (dm : DataModel) (e : Endian) (bytes : List Nat),
      MediaImage.load dm e "mType" bytes = some (readScalar e bytes 0 4) := by
    intro dm e bytes
    simp [StructDecl.load, StructDecl.slotOf, StructDecl.slots, Fields.slots, CType.align,
      CType.size, alignUp, omxScalarBytes, MediaImage]
  have hN : ∀ (dm : DataModel) (e : Endian) (bytes : List Nat),
      MediaImage.load dm e "mNumPlanes" bytes =
        some (readScalar e bytes (alignUp 4 dm.sizeTBytes) dm.sizeTBytes) := by
    intro dm e bytes
    simp [StructDecl.load, StructDecl.slotOf, StructDecl.slots, Fields.slots, CType.align,
      CType.size, omxScalarBytes, MediaImage]
    simp [alignUp]
  have hU : MediaImage.Type_.valueOf "MEDIA_IMAGE_TYPE_UNKNOWN" = some 0 := by decide
  have hY : MediaImage.Type_.valueOf "MEDIA_IMAGE_TYPE_YUV" = some 1 := by decide
  refine ⟨by decide, hU, hY, fun dm e bytes hz => ?_, fun dm e bytes h hz => ?_⟩
  · rw [hT, hN, hU, readScalar_eq_zero_of_all_zero e bytes hz,
      readScalar_eq_zero_of_all_zero e bytes hz]
    exact ⟨rfl, rfl⟩
  · rw [hT, hY, readScalar_eq_zero_of_all_zero e bytes hz] at h
    exact absurd h (by decide)

/-- C10 at the 80 zero bytes of a `MediaImage` under ILP32, and at an ILP32
little-endian `MediaImage` whose `mType` is `MEDIA_IMAGE_TYPE_YUV`. -/
theorem all_zero_MediaImage_is_unknown_with_no_planes_witness :
    (List.replicate (MediaImage.size ILP32) 0).length = 80 ∧
    (∀ b ∈ List.replicate (MediaImage.size ILP32) 0, b = 0) ∧
    (MediaImage.load ILP32 .little "mType" (List.replicate (MediaImage.size ILP32) 0) =
        MediaImage.Type_.valueOf "MEDIA_IMAGE_TYPE_UNKNOWN" ∧
      MediaImage.load ILP32 .little "mNumPlanes" (List.replicate (MediaImage.size ILP32) 0) =
        some 0) ∧
    MediaImage.load ILP32 .little "mType" (1 :: List.replicate 79 0) =
      MediaImage.Type_.valueOf "MEDIA_IMAGE_TYPE_YUV" ∧
    ¬ ∀ b ∈ 1 :: List.replicate 79 0, b = 0 :=
  ⟨by decide, by decide,
    all_zero_MediaImage_is_unknown_with_no_planes.2.2.2.1 ILP32 .little _ (by decide),
    by decide,
    all_zero_MediaImage_is_unknown_with_no_planes.2.2.2.2 ILP32 .little _ (by decide)⟩


/-! ## Writing a block and reading it back -/

/-- C3: for every struct of the header, under ILP32 and LP64 and in either
byte order, writing a value of the struct to the byte sequence of its layout
(the members in declaration order, each at its offset and width) and reading
that byte sequence back yields the value of every member unchanged, bit for
bit.  This holds member by member, a member of struct or array type taken as
all its bytes, and scalar by scalar, the scalars of nested structs and arrays
included.  The pointer members `pAppPrivate`, `bufferHeader`, `pHandle`,
`pSidebandWindow` and the reference member `nativeBuffer` of
`UseAndroidNativeBufferParams` are among them: what is written and read back
is the address their slot holds. -/
theorem store_then_load_returns_every_member :
    UseAndroidNativeBufferParams.fields.typeOf "nativeBuffer" =
      some (.reference "const sp<ANativeWindowBuffer>&") ∧
    UseAndroidNativeBufferParams.fields.typeOf "pAppPrivate" = some (.pointer "OMX_PTR") ∧
    UseAndroidNativeBufferParams.fields.typeOf "bufferHeader" =
      some (.pointer "OMX_BUFFERHEADERTYPE **") ∧
    VideoDecoderOutputMetaData.fields.typeOf "pHandle" =
      some (.pointer "buffer_handle_t") ∧
    ConfigureVideoTunnelModeParams.fields.typeOf "pSidebandWindow" =
      some (.pointer "OMX_PTR") ∧
    ∀ s ∈ structs, ∀ dm ∈ [ILP32, LP64], ∀ e : Endian,
      (∀ vals : List Nat, valuesFit (s.slots dm) vals = true →
        (s.store dm e vals).length = s.size dm ∧
        (∀ b ∈ s.store dm e vals, b < 256) ∧
        s.loadAll dm e (s.store dm e vals) = vals ∧
        s.fieldNames.map (fun f => s.load dm e f (s.store dm e vals)) = vals.map some) ∧
      (∀ vals : List Nat, valuesFit (s.leaves dm) vals = true →
        (s.storeScalars dm e vals).length = s.size dm ∧
        (∀ b ∈ s.storeScalars dm e vals, b < 256) ∧
        s.loadScalars dm e (s.storeScalars dm e vals) = vals) := by
  refine ⟨?_, ?_, ?_, ?_, ?_, ?_⟩
  · simp [UseAndroidNativeBufferParams, Fields.typeOf]
  · simp [UseAndroidNativeBufferParams, Fields.typeOf]
  · simp [UseAndroidNativeBufferParams, Fields.typeOf]
  · simp [VideoDecoderOutputMetaData, Fields.typeOf]
  · simp [ConfigureVideoTunnelModeParams, Fields.typeOf]
  intro s hs dm hdm e
  obtain ⟨hw, hend, hn⟩ := header_slots_wellPlaced s hs dm hdm
  obtain ⟨hwl, hendl⟩ := header_leaves_wellPlaced s hs dm hdm
  refine ⟨fun vals hf => ?_, fun vals hf => ?_⟩
  · obtain ⟨h1, h2, h3⟩ := load_store_of_wellPlaced e (s.slots dm) (s.size dm) hw hend vals hf
    refine ⟨h1, h2, h3, ?_⟩
    rw [load_by_name_eq dm e s _ hn]
    exact congrArg (List.map some) h3
  · exact load_store_of_wellPlaced e (s.leaves dm) (s.size dm) hwl hendl vals hf

/-- C3 at `UseAndroidNativeBufferParams` under LP64 and little-endian, with
addresses in its two pointer members and in its reference member, and at
`DescribeColorFormatParams` under ILP32 and big-endian, scalar by scalar. -/
theorem store_then_load_returns_every_member_witness :
    UseAndroidNativeBufferParams ∈ structs ∧ LP64 ∈ [ILP32, LP64] ∧
    valuesFit (UseAndroidNativeBufferParams.slots LP64)
      [40, 1, 1, 140733193392128, 140733193396224, 140733193400320] = true ∧
    UseAndroidNativeBufferParams.store LP64 .little
        [40, 1, 1, 140733193392128, 140733193396224, 140733193400320] =
      [40, 0, 0, 0, 1, 0, 0, 0, 1, 0, 0, 0, 0, 0, 0, 0,
       0, 16, 0, 0, 255, 127, 0, 0, 0, 32, 0, 0, 255, 127, 0, 0,
       0, 48, 0, 0, 255, 127, 0, 0] ∧
    UseAndroidNativeBufferParams.loadAll LP64 .little
        (UseAndroidNativeBufferParams.store LP64 .little
          [40, 1, 1, 140733193392128, 140733193396224, 140733193400320]) =
      [40, 1, 1, 140733193392128, 140733193396224, 140733193400320] ∧
    UseAndroidNativeBufferParams.load LP64 .little "nativeBuffer"
        (UseAndroidNativeBufferParams.store LP64 .little
          [40, 1, 1, 140733193392128, 140733193396224, 140733193400320]) =
      some 140733193400320 ∧
    DescribeColorFormatParams ∈ structs ∧ ILP32 ∈ [ILP32, LP64] ∧
    valuesFit (DescribeColorFormatParams.leaves ILP32)
      [108, 1, 19, 640, 480, 640, 480, 1, 3, 640, 480, 8,
       0, 1, 640, 1, 1, 307200, 1, 320, 2, 2, 384000, 1, 320, 2, 2] = true ∧
    DescribeColorFormatParams.loadScalars ILP32 .big
        (DescribeColorFormatParams.storeScalars ILP32 .big
          [108, 1, 19, 640, 480, 640, 480, 1, 3, 640, 480, 8,
           0, 1, 640, 1, 1, 307200, 1, 320, 2, 2, 384000, 1, 320, 2, 2]) =
      [108, 1, 19, 640, 480, 640, 480, 1, 3, 640, 480, 8,
       0, 1, 640, 1, 1, 307200, 1, 320, 2, 2, 384000, 1, 320, 2, 2] :=
  have hU := (store_then_load_returns_every_member.2.2.2.2.2 UseAndroidNativeBufferParams
    (by simp [structs]) LP64 (by decide) .little).1
      [40, 1, 1, 140733193392128, 140733193396224, 140733193400320] (by decide)
  have hD := (store_then_load_returns_every_member.2.2.2.2.2 DescribeColorFormatParams
    (by simp [structs]) ILP32 (by decide) .big).2
      [108, 1, 19, 640, 480, 640, 480, 1, 3, 640, 480, 8,
       0, 1, 640, 1, 1, 307200, 1, 320, 2, 2, 384000, 1, 320, 2, 2] (by decide)
  ⟨by simp [structs], by decide, by decide, by decide, hU.2.2.1,
    by
      have h := congrArg (fun l => l.getLast?) hU.2.2.2
      simpa [StructDecl.fieldNames, StructDecl.decls, Fields.decls,
        UseAndroidNativeBufferParams] using h,
    by simp [structs], by decide, by decide, hD.2.2⟩

end android
